import Mathlib

/-!
Verification of the image sourcing script (src/ImageManagementScript.py).

The Python source is shallowly embedded: strings are Lean strings (the
embedding is faithful for ASCII text; Unicode case folding outside the
basic latin range is modelled as the identity), the file tree is an
inductive tree of named files and directories, the Excel sheet is a list
of rows, and filesystem copying is driven by an oracle giving the outcome
of each copy attempt.  Logging and the text report are out of scope of the
claims and are not modelled.
-/

/-! ## Title normalizer (clean_string, lines 47-49)

Python: a regex substitution deleting every \W+ run, then .lower(), with
a falsy guard mapping the empty string to the empty string.
The regex class \W matches every character that is not a word character;
word characters are the ASCII letters, the digits and the underscore (plus
non-ASCII letters, outside this ASCII model).  The substitution runs first
and .lower() runs on the result. -/

/-- Word character test of the regex class \w, restricted to ASCII:
uppercase letter, lowercase letter, digit, or underscore (code 95). -/
def isWordChar (c : Char) : Bool :=
  (65 ≤ c.toNat && c.toNat ≤ 90) || (97 ≤ c.toNat && c.toNat ≤ 122) ||
  (48 ≤ c.toNat && c.toNat ≤ 57) || c.toNat == 95

/-- Character list form of clean_string: drop the characters matched by
\W+ and lowercase what remains.  Char.toLower is exactly the basic-latin
lowering that Python performs on ASCII input. -/
def cleanChars (l : List Char) : List Char :=
  (l.filter isWordChar).map Char.toLower

/-- Embedding of clean_string: the guard mirrors the falsy check of the
Python conditional expression, which maps the empty string to the empty
result.  Absent input (None) is also modelled by the empty result. -/
def clean_string (s : String) : String :=
  if s = "" then "" else ⟨cleanChars s.data⟩

/-- Normalizer as the specification words it: lowercase string with every
character that is not a letter or digit removed.  Written from the spec
for comparison with the source function; it is not part of the program. -/
def spec_normalize (s : String) : String :=
  ⟨(s.data.filter (fun c => c.isAlphanum)).map Char.toLower⟩

/-- Embedding of the Python str.strip() used on titles and distributors:
drop whitespace from both ends. -/
def pyStrip (s : String) : String :=
  ⟨((s.data.dropWhile Char.isWhitespace).reverse.dropWhile
      Char.isWhitespace).reverse⟩

/-! ### Character-level lemmas -/

theorem char_toNat_ofNat_valid {n : Nat} (h : n.isValidChar) :
    (Char.ofNat n).toNat = n := by
  simp [Char.ofNat, dif_pos h, Char.ofNatAux, Char.toNat, UInt32.toNat]

theorem nat_isValidChar_of_le_122 {n : Nat} (h : n ≤ 122) : n.isValidChar := by
  left; omega

theorem toLower_toNat (c : Char) :
    (Char.toLower c).toNat =
      if 65 ≤ c.toNat ∧ c.toNat ≤ 90 then c.toNat + 32 else c.toNat := by
  unfold Char.toLower
  by_cases h : 65 ≤ c.toNat ∧ c.toNat ≤ 90
  · rw [if_pos ⟨h.1, h.2⟩, if_pos h,
      char_toNat_ofNat_valid (nat_isValidChar_of_le_122 (by omega))]
  · rw [if_neg, if_neg h]
    intro hc
    exact h ⟨hc.1, hc.2⟩

theorem isWordChar_toLower (c : Char) :
    isWordChar (Char.toLower c) = isWordChar c := by
  simp only [isWordChar, toLower_toNat]
  by_cases h : 65 ≤ c.toNat ∧ c.toNat ≤ 90
  · rw [if_pos h, Bool.eq_iff_iff]
    simp only [Bool.or_eq_true, Bool.and_eq_true, decide_eq_true_eq, beq_iff_eq]
    constructor <;> intro <;> omega
  · rw [if_neg h]

theorem toLower_toLower (c : Char) :
    Char.toLower (Char.toLower c) = Char.toLower c := by
  apply Char.ext
  have h : (Char.toLower (Char.toLower c)).toNat = (Char.toLower c).toNat := by
    rw [toLower_toNat (Char.toLower c), toLower_toNat c]
    by_cases h : 65 ≤ c.toNat ∧ c.toNat ≤ 90
    · rw [if_pos h, if_neg (by omega)]
    · rw [if_neg h, if_neg h]
  exact UInt32.toNat.inj h

theorem cleanChars_idem (l : List Char) :
    cleanChars (cleanChars l) = cleanChars l := by
  unfold cleanChars
  rw [List.filter_map, List.map_map]
  have hfil : (isWordChar ∘ Char.toLower) = isWordChar := by
    funext c
    exact isWordChar_toLower c
  have hlow : (Char.toLower ∘ Char.toLower) = Char.toLower := by
    funext c
    exact toLower_toLower c
  rw [hfil, hlow, List.filter_filter]
  congr 1
  apply List.filter_congr
  intro c _
  rw [Bool.and_self]

/-- C5: clean_string is idempotent (normalizing twice equals normalizing
once), and it identifies strings differing only in case and punctuation:
clean_string of the string The Movie! (with capitals and bang) equals
clean_string of the string the movie (with extra spaces). -/
theorem clean_string_idempotent_insensitive :
    (∀ s : String, clean_string (clean_string s) = clean_string s)
    ∧ clean_string ("The Movie!") = clean_string ("the   movie") := by
  refine ⟨?_, by decide⟩
  intro s
  unfold clean_string
  by_cases h : s = ""
  · simp [h]
  · rw [if_neg h]
    by_cases h2 : (⟨cleanChars s.data⟩ : String) = ""
    · rw [if_pos h2, h2]
    · rw [if_neg h2]
      show (⟨cleanChars (String.data ⟨cleanChars s.data⟩)⟩ : String) = _
      rw [show String.data ⟨cleanChars s.data⟩ = cleanChars s.data from rfl,
        cleanChars_idem]

/-- C4: the source contradicts its own docstring (and the spec) on the
underscore.  The regex class \W leaves underscores in place because the
underscore is a word character, so clean_string of a_b is a_b, while the
documented behavior (every non-alphanumeric character removed) yields ab. -/
theorem clean_string_underscore_divergence :
    clean_string ("a_b") = "a_b" ∧ spec_normalize ("a_b") = "ab"
    ∧ clean_string ("a_b") ≠ spec_normalize ("a_b") := by
  decide

/-! ## Substring containment (the Python `in` operator on strings) -/

/-- Boolean infix test on character lists: the needle occurs contiguously
inside the haystack. -/
def infixB (needle : List Char) : List Char → Bool
  | [] => needle.isEmpty
  | c :: rest => needle.isPrefixOf (c :: rest) || infixB needle rest

/-- Embedding of the Python expression `needle in hay` on strings. -/
def containsStr (hay needle : String) : Bool :=
  infixB needle.data hay.data

theorem infixB_nil (l : List Char) : infixB [] l = true := by
  cases l <;> simp [infixB, List.isPrefixOf]

theorem containsStr_empty_needle (hay : String) :
    containsStr hay ("") = true :=
  infixB_nil hay.data

/-! ## File tree model

A directory entry is a file or a directory with an ordered list of
children; the order of a list of children stands for the (platform
dependent) enumeration order of the underlying filesystem.  A FileEntry
identifies a file by the directory components leading to it plus its
filename, mirroring a pathlib Path. -/

inductive FSTree where
  | file (name : String)
  | dir (name : String) (children : List FSTree)

def FSTree.name : FSTree → String
  | .file n => n
  | .dir n _ => n

def FSTree.isDir : FSTree → Bool
  | .file _ => false
  | .dir _ _ => true

def FSTree.childrenOf : FSTree → List FSTree
  | .file _ => []
  | .dir _ cs => cs

structure FileEntry where
  path : List String
  name : String
deriving DecidableEq

/-- Embedding of Path.rglob("*") filtered by is_file: every file in the
subtree, tagged with the directory components above it.  This fixes one
enumeration order for each directory; the design notes of the program call
the real order filesystem dependent. -/
def rglobFiles (pre : List String) : List FSTree → List FileEntry
  | [] => []
  | .file n :: rest => ⟨pre, n⟩ :: rglobFiles pre rest
  | .dir d cs :: rest => rglobFiles (pre ++ [d]) cs ++ rglobFiles pre rest

/-- The source tree: an association of distributor names to the children
of the distributor folder; a missing key is a missing folder. -/
abbrev Src := List (String × List FSTree)

/-- Embedding of the existence test and listing of source_dir / name. -/
def lookupAssoc (src : Src) (key : String) : Option (List FSTree) :=
  (src.find? (fun p => p.1 == key)).map (fun p => p.2)

/-- Embedding of (folder / name).exists(): the first child carrying the
name, if any. -/
def findEntry (children : List FSTree) (name : String) : Option FSTree :=
  children.find? (fun t => t.name == name)

/-! ## Asset resolver (ImageManager.find_image, lines 64-94) -/

/-- Folder selection of find_image, lines 71-75: list the child
directories whose name contains the substring Poster; if exactly one
exists and its name contains Horizontal Posters, search it regardless of
the requested category, else search the child named after the category. -/
def selectTarget (children : List FSTree) (folder_type : String) : Option FSTree :=
  match children.filter (fun t => containsStr t.name ("Poster") && t.isDir) with
  | [p] =>
    if containsStr p.name ("Horizontal Posters") then some p
    else findEntry children folder_type
  | _ => findEntry children folder_type

/-- Tie-break of find_image, lines 86-92: first matching file whose raw
name contains (1), else first whose raw name contains (2), else the first
matching file; none when there is no candidate. -/
def pickPriority (files : List FileEntry) : Option FileEntry :=
  match files.find? (fun f => containsStr f.name ("(1)")) with
  | some f => some f
  | none =>
    match files.find? (fun f => containsStr f.name ("(2)")) with
    | some f => some f
    | none => files.head?

/-- Embedding of ImageManager.find_image: locate the distributor folder,
select the target folder, recursively enumerate its files, keep those
whose normalized name contains the normalized title, and tie-break. -/
def find_image (src : Src) (movie_title distributor folder_type : String) :
    Option FileEntry :=
  match lookupAssoc src distributor with
  | none => none
  | some children =>
    match selectTarget children folder_type with
    | none => none
    | some target_folder =>
      pickPriority
        ((rglobFiles [distributor, target_folder.name] target_folder.childrenOf).filter
          (fun file => containsStr (clean_string file.name) (clean_string movie_title)))

/-- Embedding of ImageManager.find_image_by_title_only, lines 96-110:
search only distributor / folder_type and return the first file whose
normalized name contains the normalized title. -/
def find_image_by_title_only (src : Src) (title distributor folder_type : String) :
    Option FileEntry :=
  match lookupAssoc src distributor with
  | none => none
  | some children =>
    match findEntry children folder_type with
    | none => none
    | some target_folder =>
      (rglobFiles [distributor, target_folder.name] target_folder.childrenOf).find?
        (fun file => containsStr (clean_string file.name) (clean_string title))

/-! ### Resolver lemmas -/

theorem pickPriority_mem {l : List FileEntry} {f : FileEntry}
    (h : pickPriority l = some f) : f ∈ l := by
  unfold pickPriority at h
  cases h1 : l.find? (fun g => containsStr g.name ("(1)")) with
  | some g =>
    rw [h1] at h
    cases h
    exact List.mem_of_find?_eq_some h1
  | none =>
    rw [h1] at h
    cases h2 : l.find? (fun g => containsStr g.name ("(2)")) with
    | some g =>
      rw [h2] at h
      cases h
      exact List.mem_of_find?_eq_some h2
    | none =>
      rw [h2] at h
      cases l with
      | nil => cases h
      | cons a t =>
        rw [List.head?_cons, Option.some.injEq] at h
        subst h
        exact List.mem_cons_self a t

theorem pickPriority_unique {l : List FileEntry} {f : FileEntry}
    (hmem : f ∈ l) (huniq : ∀ g ∈ l, g = f) : pickPriority l = some f := by
  unfold pickPriority
  cases h1 : l.find? (fun g => containsStr g.name ("(1)")) with
  | some g =>
    rw [huniq g (List.mem_of_find?_eq_some h1)]
  | none =>
    cases h2 : l.find? (fun g => containsStr g.name ("(2)")) with
    | some g =>
      rw [huniq g (List.mem_of_find?_eq_some h2)]
    | none =>
      cases l with
      | nil => cases hmem
      | cons a t =>
        show some a = some f
        rw [huniq a (List.mem_cons_self a t)]

theorem pickPriority_isSome {l : List FileEntry} (h : l ≠ []) :
    (pickPriority l).isSome = true := by
  unfold pickPriority
  cases h1 : l.find? (fun g => containsStr g.name ("(1)")) with
  | some g => rfl
  | none =>
    cases h2 : l.find? (fun g => containsStr g.name ("(2)")) with
    | some g => rfl
    | none =>
      cases l with
      | nil => exact absurd rfl h
      | cons a t => rfl

theorem selectTarget_mem {children : List FSTree} {folder_type : String}
    {tgt : FSTree} (h : selectTarget children folder_type = some tgt) :
    tgt ∈ children := by
  unfold selectTarget at h
  split at h
  · split at h
    · cases h
      rename_i heq _
      have : tgt ∈ children.filter (fun t => containsStr t.name ("Poster") && t.isDir) := by
        rw [heq]
        exact List.mem_cons_self tgt []
      exact (List.mem_filter.mp this).1
    · exact List.mem_of_find?_eq_some h
  · exact List.mem_of_find?_eq_some h

theorem find_image_eq_target (src : Src) (title distributor folder_type : String)
    (children : List FSTree) (tgt : FSTree)
    (hlook : lookupAssoc src distributor = some children)
    (hsel : selectTarget children folder_type = some tgt) :
    find_image src title distributor folder_type =
      pickPriority ((rglobFiles [distributor, tgt.name] tgt.childrenOf).filter
        (fun file => containsStr (clean_string file.name) (clean_string title))) := by
  unfold find_image
  rw [hlook]
  show (match selectTarget children folder_type with
    | none => none
    | some target_folder =>
      pickPriority
        ((rglobFiles [distributor, target_folder.name] target_folder.childrenOf).filter
          (fun file => containsStr (clean_string file.name) (clean_string title)))) = _
  rw [hsel]

/-- C1: when a file f lies under the Poster folder of a distributor, its
normalized name contains the normalized title, and no other file under
that folder matches, find_image on category Poster returns f. -/
theorem find_image_unique_candidate
    (src : Src) (title distributor : String)
    (children pchildren : List FSTree) (f : FileEntry)
    (hlook : lookupAssoc src distributor = some children)
    (hposter : findEntry children ("Poster") = some (FSTree.dir ("Poster") pchildren))
    (hf : f ∈ rglobFiles [distributor, "Poster"] pchildren)
    (hmatch : containsStr (clean_string f.name) (clean_string title) = true)
    (huniq : ∀ g ∈ rglobFiles [distributor, "Poster"] pchildren,
      containsStr (clean_string g.name) (clean_string title) = true → g = f) :
    find_image src title distributor ("Poster") = some f := by
  have hD : FSTree.dir ("Poster") pchildren ∈ children :=
    List.mem_of_find?_eq_some hposter
  have hDf : FSTree.dir ("Poster") pchildren ∈
      children.filter (fun t => containsStr t.name ("Poster") && t.isDir) :=
    List.mem_filter.mpr ⟨hD, rfl⟩
  have hsel : selectTarget children ("Poster") =
      some (FSTree.dir ("Poster") pchildren) := by
    unfold selectTarget
    split
    · rename_i p heq
      rw [heq, List.mem_singleton] at hDf
      rw [← hDf]
      have hname : (FSTree.dir ("Poster") pchildren).name = "Poster" := rfl
      rw [hname, if_neg (by decide)]
      exact hposter
    · exact hposter
  rw [find_image_eq_target src title distributor ("Poster") children
    (FSTree.dir ("Poster") pchildren) hlook hsel]
  apply pickPriority_unique
  · exact List.mem_filter.mpr ⟨hf, hmatch⟩
  · intro g hg
    have hg2 := List.mem_filter.mp hg
    exact huniq g hg2.1 hg2.2

/-- Concrete source tree exercising the unique-candidate property. -/
def exampleUniqueSrc : Src :=
  [("DistX", [FSTree.dir ("Poster") [FSTree.file ("title-a-final.jpg")]])]

/-- Witness for C1 at a concrete tree: the single matching file under
DistX/Poster is returned for the title Title A. -/
theorem find_image_unique_candidate_witness :
    find_image exampleUniqueSrc ("Title A") ("DistX") ("Poster") =
      some ⟨["DistX", "Poster"], "title-a-final.jpg"⟩ := by
  have hrg : rglobFiles ["DistX", "Poster"] [FSTree.file ("title-a-final.jpg")] =
      [⟨["DistX", "Poster"], "title-a-final.jpg"⟩] := by
    simp [rglobFiles]
  apply find_image_unique_candidate exampleUniqueSrc ("Title A") ("DistX")
    [FSTree.dir ("Poster") [FSTree.file ("title-a-final.jpg")]]
    [FSTree.file ("title-a-final.jpg")]
  · rfl
  · rfl
  · rw [hrg]
    exact List.mem_cons_self _ _
  · decide
  · rw [hrg]
    intro g hg _
    simpa using hg

/-- Concrete source tree with the tie-break candidates of the spec. -/
def exampleTieSrc : Src :=
  [("D", [FSTree.dir ("Poster")
    [FSTree.file ("X(2).jpg"), FSTree.file ("X(1).jpg"), FSTree.file ("X.jpg")]])]

/-- C2: the tie-break returns the first candidate whose raw filename
contains (1) when one exists, else the first containing (2), else the
first candidate in enumeration order; and on the concrete candidates
X(2).jpg, X(1).jpg, X.jpg for title X, find_image returns X(1).jpg. -/
theorem pick_priority_tiebreak :
    (∀ l : List FileEntry,
      pickPriority l =
        if l.any (fun f => containsStr f.name ("(1)")) then
          (l.filter (fun f => containsStr f.name ("(1)"))).head?
        else if l.any (fun f => containsStr f.name ("(2)")) then
          (l.filter (fun f => containsStr f.name ("(2)"))).head?
        else l.head?)
    ∧ find_image exampleTieSrc ("X") ("D") ("Poster") =
        some ⟨["D", "Poster"], "X(1).jpg"⟩ := by
  constructor
  · intro l
    unfold pickPriority
    rw [List.filter_head?, List.filter_head?]
    cases h1 : l.find? (fun f => containsStr f.name ("(1)")) with
    | some g =>
      have hp1 := List.find?_some h1
      have ha : l.any (fun f => containsStr f.name ("(1)")) = true :=
        List.any_eq_true.mpr ⟨g, List.mem_of_find?_eq_some h1, hp1⟩
      rw [ha]
      simp
    | none =>
      have ha : l.any (fun f => containsStr f.name ("(1)")) = false :=
        List.any_eq_false.mpr (fun x hx => List.find?_eq_none.mp h1 x hx)
      rw [ha]
      cases h2 : l.find? (fun f => containsStr f.name ("(2)")) with
      | some g =>
        have hp2 := List.find?_some h2
        have hb : l.any (fun f => containsStr f.name ("(2)")) = true :=
          List.any_eq_true.mpr ⟨g, List.mem_of_find?_eq_some h2, hp2⟩
        rw [hb]
        simp
      | none =>
        have hb : l.any (fun f => containsStr f.name ("(2)")) = false :=
          List.any_eq_false.mpr (fun x hx => List.find?_eq_none.mp h2 x hx)
        rw [hb]
        simp
  · have heq := find_image_eq_target exampleTieSrc ("X") ("D") ("Poster")
      [FSTree.dir ("Poster")
        [FSTree.file ("X(2).jpg"), FSTree.file ("X(1).jpg"), FSTree.file ("X.jpg")]]
      (FSTree.dir ("Poster")
        [FSTree.file ("X(2).jpg"), FSTree.file ("X(1).jpg"), FSTree.file ("X.jpg")])
      rfl rfl
    rw [heq]
    rw [show rglobFiles ["D", (FSTree.dir ("Poster")
        [FSTree.file ("X(2).jpg"), FSTree.file ("X(1).jpg"), FSTree.file ("X.jpg")]).name]
        (FSTree.dir ("Poster")
        [FSTree.file ("X(2).jpg"), FSTree.file ("X(1).jpg"), FSTree.file ("X.jpg")]).childrenOf =
      [⟨["D", "Poster"], "X(2).jpg"⟩, ⟨["D", "Poster"], "X(1).jpg"⟩,
        ⟨["D", "Poster"], "X.jpg"⟩] from by simp [rglobFiles, FSTree.name, FSTree.childrenOf]]
    decide

/-- C3: when the distributor folder has exactly one child directory whose
name contains Poster and that name contains Horizontal Posters, the
resolver selects it for every requested category; in every other case it
selects the child named exactly after the category, and find_image
searches the selected folder. -/
theorem select_target_rules :
    (∀ (children : List FSTree) (folder_type : String) (p : FSTree),
      children.filter (fun t => containsStr t.name ("Poster") && t.isDir) = [p] →
      containsStr p.name ("Horizontal Posters") = true →
      selectTarget children folder_type = some p)
    ∧ (∀ (children : List FSTree) (folder_type : String),
      (∀ p : FSTree,
        children.filter (fun t => containsStr t.name ("Poster") && t.isDir) = [p] →
        containsStr p.name ("Horizontal Posters") = false) →
      selectTarget children folder_type = findEntry children folder_type)
    ∧ (∀ (src : Src) (title distributor folder_type : String)
        (children : List FSTree) (tgt : FSTree),
      lookupAssoc src distributor = some children →
      selectTarget children folder_type = some tgt →
      find_image src title distributor folder_type =
        pickPriority ((rglobFiles [distributor, tgt.name] tgt.childrenOf).filter
          (fun file => containsStr (clean_string file.name) (clean_string title)))) := by
  refine ⟨?_, ?_, ?_⟩
  · intro children folder_type p heq hcontains
    unfold selectTarget
    rw [heq]
    show (if containsStr p.name ("Horizontal Posters") = true then some p
      else findEntry children folder_type) = some p
    rw [if_pos hcontains]
  · intro children folder_type h
    unfold selectTarget
    split
    · rename_i p heq
      rw [h p heq]
      simp
    · rfl
  · intro src title distributor folder_type children tgt hlook hsel
    exact find_image_eq_target src title distributor folder_type children tgt hlook hsel

/-- Witness for C3 at a concrete tree: a distributor holding a single
folder named Horizontal Posters Extra and no other Poster folder is
searched even when the requested category is Still. -/
theorem select_target_rules_witness :
    selectTarget [FSTree.dir ("Horizontal Posters Extra") [FSTree.file ("Y.jpg")]]
        ("Still") =
      some (FSTree.dir ("Horizontal Posters Extra") [FSTree.file ("Y.jpg")]) :=
  select_target_rules.1
    [FSTree.dir ("Horizontal Posters Extra") [FSTree.file ("Y.jpg")]]
    ("Still")
    (FSTree.dir ("Horizontal Posters Extra") [FSTree.file ("Y.jpg")])
    rfl rfl

/-- C10: a title whose normalization is the empty string makes every file
of the selected folder a candidate, so find_image degenerates to the
tie-break over the whole folder and never returns none when the folder
holds at least one file. -/
theorem find_image_empty_normalized_title
    (src : Src) (title distributor folder_type : String)
    (children : List FSTree) (tgt : FSTree)
    (htrim : pyStrip title ≠ "")
    (hclean : clean_string title = "")
    (hlook : lookupAssoc src distributor = some children)
    (hsel : selectTarget children folder_type = some tgt)
    (hne : rglobFiles [distributor, tgt.name] tgt.childrenOf ≠ []) :
    find_image src title distributor folder_type =
      pickPriority (rglobFiles [distributor, tgt.name] tgt.childrenOf)
    ∧ (find_image src title distributor folder_type).isSome = true := by
  have heq := find_image_eq_target src title distributor folder_type children tgt hlook hsel
  have hfil : (rglobFiles [distributor, tgt.name] tgt.childrenOf).filter
      (fun file => containsStr (clean_string file.name) (clean_string title)) =
      rglobFiles [distributor, tgt.name] tgt.childrenOf := by
    apply List.filter_eq_self.mpr
    intro a _
    rw [hclean]
    exact containsStr_empty_needle _
  constructor
  · rw [heq, hfil]
  · rw [heq, hfil]
    exact pickPriority_isSome hne

/-- Witness for C10 at a concrete tree: the punctuation-only title !!!
normalizes to the empty key and still resolves to a file. -/
theorem find_image_empty_normalized_title_witness :
    find_image [("D2", [FSTree.dir ("Poster") [FSTree.file ("anything.jpg")]])]
        ("!!!") ("D2") ("Poster") =
      pickPriority (rglobFiles ["D2", "Poster"] [FSTree.file ("anything.jpg")])
    ∧ (find_image [("D2", [FSTree.dir ("Poster") [FSTree.file ("anything.jpg")]])]
        ("!!!") ("D2") ("Poster")).isSome = true :=
  find_image_empty_normalized_title
    [("D2", [FSTree.dir ("Poster") [FSTree.file ("anything.jpg")]])]
    ("!!!") ("D2") ("Poster")
    [FSTree.dir ("Poster") [FSTree.file ("anything.jpg")]]
    (FSTree.dir ("Poster") [FSTree.file ("anything.jpg")])
    (by decide) (by decide) rfl rfl
    (by simp [rglobFiles, FSTree.name, FSTree.childrenOf])

/-! ## Asset transfer (ImageManager.copy_image, lines 112-128)

The filesystem copy itself is out of scope; a copy oracle gives the
outcome of each attempt (success, permission error, or any other error),
indexed by distributor, category folder and source file. -/

inductive CopyOutcome where
  | success
  | permissionError
  | otherError

abbrev CopyOracle := String → String → FileEntry → CopyOutcome

/-- Embedding of copy_image: on success return the source filename and
leave the error list unchanged; on a permission error or any other error
append the source path to the error list and return no filename.  The
error list entry stands for str(src_path). -/
def copy_image (co : CopyOracle) (src_path : FileEntry)
    (distributor folder_type : String) (copy_errors : List FileEntry) :
    Option String × List FileEntry :=
  match co distributor folder_type src_path with
  | .success => (some src_path.name, copy_errors)
  | .permissionError => (none, copy_errors ++ [src_path])
  | .otherError => (none, copy_errors ++ [src_path])

/-! ## Excel catalog model (ExcelHandler.update_images, lines 145-166) -/

/-- A catalog row: the title cell (column B) and the two output cells
(columns D and E); none models an empty cell. -/
structure SheetRow where
  title : Option String
  poster : Option String
  still : Option String
deriving DecidableEq

/-- Truthiness of a cell value in Python: an empty or absent string is
falsy. -/
def truthyCell : Option String → Bool
  | none => false
  | some s => s != ""

/-- Embedding of the sheet_title_map dictionary, lines 149-155: the map
from a cleaned title to the row carrying it; a later row overwrites an
earlier one with the same cleaned title, so lookup returns the last
matching row index. -/
def sheetTitleLookup (sheet : List SheetRow) (key : String) : Option Nat :=
  ((sheet.enum.filter (fun p => truthyCell p.2.title &&
      (clean_string (p.2.title.getD ("")) == key))).getLast?).map (fun p => p.1)

/-- Write through a row index, leaving every other row unchanged. -/
def setRow (sheet : List SheetRow) (i : Nat) (f : SheetRow → SheetRow) :
    List SheetRow :=
  sheet.enum.map (fun p => if p.1 = i then f p.2 else p.2)

/-- Loop body of update_images, lines 157-164: look the cleaned title up
in the map built from the original sheet and, when a row matches, write
the poster and still filenames into it when they are truthy. -/
def updateStep (sheet : List SheetRow) (sh : List SheetRow)
    (entry : String × Option String × Option String) : List SheetRow :=
  match sheetTitleLookup sheet (clean_string entry.1) with
  | none => sh
  | some i =>
    setRow sh i (fun r =>
      { r with
        poster := if truthyCell entry.2.1 then entry.2.1 else r.poster
        still := if truthyCell entry.2.2 then entry.2.2 else r.still })

/-- Embedding of ExcelHandler.update_images: fold the loop body over the
movie_data entries, with the title map built once from the original
sheet. -/
def update_images (movie_data : List (String × Option String × Option String))
    (sheet : List SheetRow) : List SheetRow :=
  movie_data.foldl (updateStep sheet) sheet

/-! ## Run orchestrator (process_images, lines 173-226) -/

/-- A spreadsheet input row as read by pandas: a missing value (NaN) is
none, anything else is the cell text. -/
structure MovieRow where
  title : Option String
  distributor : Option String

/-- The run state owned by the orchestrator: the accumulated
title-to-filenames mapping, the per-distributor unmatched buckets, and
the copy error list. -/
structure RunState where
  movieData : List (String × Option String × Option String)
  notFound : List (String × List String)
  copyErrors : List FileEntry

/-- Python falsiness of an optional string: absent or empty. -/
def falsyOpt : Option String → Bool
  | none => true
  | some s => s == ""

/-- Embedding of the Python `x or default` idiom on optional strings. -/
def pyOr : Option String → String → String
  | none, dflt => dflt
  | some s, dflt => if s = "" then dflt else s

/-- Embedding of defaultdict(list) appending: add the value to the bucket
of the key, creating the bucket at the end on first use. -/
def bucketAdd : List (String × List String) → String → String →
    List (String × List String)
  | [], k, v => [(k, [v])]
  | (k2, vs) :: rest, k, v =>
    if k2 = k then (k2, vs ++ [v]) :: rest
    else (k2, vs) :: bucketAdd rest k v

/-- Embedding of dict assignment d[k] = v: overwrite in place or append. -/
def dictInsert {α : Type} : List (String × α) → String → α → List (String × α)
  | [], k, v => [(k, v)]
  | (k2, v2) :: rest, k, v =>
    if k2 = k then (k, v) :: rest
    else (k2, v2) :: dictInsert rest k v

/-- Fallback chain of the orchestrator, lines 209-215: the primary
find_image, then find_image_by_title_only when it returned nothing. -/
def resolveWithFallback (src : Src) (title distributor folder_type : String) :
    Option FileEntry :=
  match find_image src title distributor folder_type with
  | some p => some p
  | none => find_image_by_title_only src title distributor folder_type

/-- One category attempt of the orchestrator, lines 209-218: resolve with
fallback, then copy when a path was found; the first component is the
copied filename (none when nothing resolved or the copy failed) and the
second the updated error list. -/
def attemptCategory (src : Src) (co : CopyOracle) (copy_errors : List FileEntry)
    (title distributor folder_type : String) : Option String × List FileEntry :=
  match resolveWithFallback src title distributor folder_type with
  | some p => copy_image co p distributor folder_type copy_errors
  | none => (none, copy_errors)

/-- Embedding of one iteration of the loop in process_images, lines
198-223: validate the stripped title and distributor, attempt the Poster
and the Still categories, record the filenames, and record the title as
unmatched when neither category produced a filename. -/
def processRow (src : Src) (co : CopyOracle) (st : RunState) (row : MovieRow) :
    RunState :=
  let title_str := row.title.map pyStrip
  let distributor_str := row.distributor.map pyStrip
  if falsyOpt title_str || falsyOpt distributor_str then
    { st with
      notFound :=
        bucketAdd st.notFound (pyOr distributor_str ("UNDEFINED DISTRIBUTOR"))
          (pyOr title_str ("Undefined title")) }
  else
    let t := title_str.getD ("")
    let d := distributor_str.getD ("")
    let pr := attemptCategory src co st.copyErrors t d ("Poster")
    let sr := attemptCategory src co pr.2 t d ("Still")
    { movieData := dictInsert st.movieData t (pr.1, sr.1)
      notFound :=
        if falsyOpt pr.1 && falsyOpt sr.1 then bucketAdd st.notFound d t
        else st.notFound
      copyErrors := sr.2 }

/-- Embedding of process_images: fold the per-row processing over the
catalog starting from the empty state, then write the results back into
the sheet.  The report generation is out of scope. -/
def process_images (src : Src) (co : CopyOracle) (rows : List MovieRow)
    (sheet : List SheetRow) : List SheetRow × RunState :=
  let st := rows.foldl (processRow src co) ⟨[], [], []⟩
  (update_images st.movieData sheet, st)

/-! ### Fallback resolver lemmas -/

theorem fibto_none_of_no_distributor {src : Src} {t d ft : String}
    (h : lookupAssoc src d = none) :
    find_image_by_title_only src t d ft = none := by
  unfold find_image_by_title_only
  rw [h]

theorem fibto_none_of_no_target {src : Src} {t d ft : String}
    {children : List FSTree}
    (h1 : lookupAssoc src d = some children)
    (h2 : findEntry children ft = none) :
    find_image_by_title_only src t d ft = none := by
  unfold find_image_by_title_only
  rw [h1]
  show (match findEntry children ft with
    | none => none
    | some target_folder =>
      (rglobFiles [d, target_folder.name] target_folder.childrenOf).find?
        (fun file : FileEntry =>
          containsStr (clean_string file.name) (clean_string t))) = none
  rw [h2]

theorem fibto_eq_find {src : Src} {t d ft : String}
    {children : List FSTree} {tgt : FSTree}
    (h1 : lookupAssoc src d = some children)
    (h2 : findEntry children ft = some tgt) :
    find_image_by_title_only src t d ft =
      (rglobFiles [d, tgt.name] tgt.childrenOf).find?
        (fun file => containsStr (clean_string file.name) (clean_string t)) := by
  unfold find_image_by_title_only
  rw [h1]
  show (match findEntry children ft with
    | none => none
    | some target_folder =>
      (rglobFiles [d, target_folder.name] target_folder.childrenOf).find?
        (fun file : FileEntry =>
          containsStr (clean_string file.name) (clean_string t))) = _
  rw [h2]

/-- C6: find_image_by_title_only searches only the category folder of the
distributor and returns the first (in enumeration order) substring match,
or nothing when the distributor folder, the category folder, or a match
is absent; and the orchestrator falls back to it exactly when the primary
find_image returned nothing. -/
theorem find_by_title_only_contract :
    (∀ (src : Src) (title distributor folder_type : String),
      lookupAssoc src distributor = none →
      find_image_by_title_only src title distributor folder_type = none)
    ∧ (∀ (src : Src) (title distributor folder_type : String)
        (children : List FSTree),
      lookupAssoc src distributor = some children →
      findEntry children folder_type = none →
      find_image_by_title_only src title distributor folder_type = none)
    ∧ (∀ (src : Src) (title distributor folder_type : String)
        (children : List FSTree) (tgt : FSTree),
      lookupAssoc src distributor = some children →
      findEntry children folder_type = some tgt →
      find_image_by_title_only src title distributor folder_type =
        ((rglobFiles [distributor, tgt.name] tgt.childrenOf).filter
          (fun file => containsStr (clean_string file.name)
            (clean_string title))).head?)
    ∧ (∀ (src : Src) (title distributor folder_type : String) (p : FileEntry),
      find_image src title distributor folder_type = some p →
      resolveWithFallback src title distributor folder_type = some p)
    ∧ (∀ (src : Src) (title distributor folder_type : String),
      find_image src title distributor folder_type = none →
      resolveWithFallback src title distributor folder_type =
        find_image_by_title_only src title distributor folder_type) := by
  refine ⟨?_, ?_, ?_, ?_, ?_⟩
  · intro src title distributor folder_type h
    exact fibto_none_of_no_distributor h
  · intro src title distributor folder_type children h1 h2
    exact fibto_none_of_no_target h1 h2
  · intro src title distributor folder_type children tgt h1 h2
    rw [fibto_eq_find h1 h2, List.filter_head?]
  · intro src title distributor folder_type p h
    unfold resolveWithFallback
    rw [h]
  · intro src title distributor folder_type h
    unfold resolveWithFallback
    rw [h]

/-- Concrete source tree where the primary resolver is diverted to an
empty shared Horizontal Posters folder while the category folder holds
the asset, so only the fallback finds it. -/
def exampleFallbackSrc : Src :=
  [("E", [FSTree.dir ("Horizontal Posters X") [],
    FSTree.dir ("Still") [FSTree.file ("m.jpg")]])]

/-- Witness for C6 at a concrete tree: find_image returns nothing there,
the orchestrator chain therefore equals the title-only fallback, and that
fallback returns the file under the category folder. -/
theorem find_by_title_only_contract_witness :
    resolveWithFallback exampleFallbackSrc ("m") ("E") ("Still") =
      find_image_by_title_only exampleFallbackSrc ("m") ("E") ("Still")
    ∧ find_image_by_title_only exampleFallbackSrc ("m") ("E") ("Still") =
      some ⟨["E", "Still"], "m.jpg"⟩ := by
  have hfi : find_image exampleFallbackSrc ("m") ("E") ("Still") = none := by
    rw [find_image_eq_target exampleFallbackSrc ("m") ("E") ("Still")
      [FSTree.dir ("Horizontal Posters X") [],
        FSTree.dir ("Still") [FSTree.file ("m.jpg")]]
      (FSTree.dir ("Horizontal Posters X") []) rfl rfl]
    rw [show rglobFiles ["E", (FSTree.dir ("Horizontal Posters X") []).name]
        (FSTree.dir ("Horizontal Posters X") []).childrenOf = [] from by
      simp [rglobFiles, FSTree.name, FSTree.childrenOf]]
    rfl
  constructor
  · exact find_by_title_only_contract.2.2.2.2 exampleFallbackSrc ("m") ("E")
      ("Still") hfi
  · rw [find_by_title_only_contract.2.2.1 exampleFallbackSrc ("m") ("E") ("Still")
      [FSTree.dir ("Horizontal Posters X") [],
        FSTree.dir ("Still") [FSTree.file ("m.jpg")]]
      (FSTree.dir ("Still") [FSTree.file ("m.jpg")]) rfl rfl]
    rw [show rglobFiles ["E", (FSTree.dir ("Still") [FSTree.file ("m.jpg")]).name]
        (FSTree.dir ("Still") [FSTree.file ("m.jpg")]).childrenOf =
        [⟨["E", "Still"], "m.jpg"⟩] from by
      simp [rglobFiles, FSTree.name, FSTree.childrenOf]]
    decide

/-! ### Filenames of a real file tree are nonempty

Every file a filesystem walk returns carries a nonempty final name; the
following predicate captures that side condition of the model. -/

def namesOkL : List FSTree → Bool
  | [] => true
  | .file n :: rest => (!(n == "")) && namesOkL rest
  | .dir _ cs :: rest => namesOkL cs && namesOkL rest

def srcNamesOk (src : Src) : Bool :=
  src.all (fun p => namesOkL p.2)

theorem rglob_names {pre : List String} {ts : List FSTree} {f : FileEntry}
    (hok : namesOkL ts = true) (hf : f ∈ rglobFiles pre ts) : f.name ≠ "" := by
  induction pre, ts using rglobFiles.induct with
  | case1 pre => simp [rglobFiles] at hf
  | case2 pre n rest ih =>
    simp only [rglobFiles, List.mem_cons] at hf
    simp only [namesOkL, Bool.and_eq_true, Bool.not_eq_eq_eq_not, Bool.not_true,
      beq_eq_false_iff_ne, ne_eq] at hok
    rcases hf with rfl | hf
    · simpa using hok.1
    · exact ih hok.2 hf
  | case3 pre d cs rest ih1 ih2 =>
    simp only [rglobFiles, List.mem_append] at hf
    simp only [namesOkL, Bool.and_eq_true] at hok
    rcases hf with hf | hf
    · exact ih1 hok.1 hf
    · exact ih2 hok.2 hf

theorem namesOkL_of_dir_mem {ts : List FSTree} {d : String} {cs : List FSTree}
    (hmem : FSTree.dir d cs ∈ ts) (hok : namesOkL ts = true) :
    namesOkL cs = true := by
  induction ts with
  | nil => cases hmem
  | cons head rest ih =>
    cases hmem with
    | head =>
      simp only [namesOkL, Bool.and_eq_true] at hok
      exact hok.1
    | tail _ hmem2 =>
      cases head with
      | file n =>
        simp only [namesOkL, Bool.and_eq_true] at hok
        exact ih hmem2 hok.2
      | dir d2 cs2 =>
        simp only [namesOkL, Bool.and_eq_true] at hok
        exact ih hmem2 hok.2

theorem namesOkL_childrenOf {ts : List FSTree} {t : FSTree}
    (hmem : t ∈ ts) (hok : namesOkL ts = true) :
    namesOkL t.childrenOf = true := by
  cases t with
  | file n => simp [FSTree.childrenOf, namesOkL]
  | dir d cs => exact namesOkL_of_dir_mem hmem hok

theorem lookupAssoc_namesOk {src : Src} {key : String} {children : List FSTree}
    (hok : srcNamesOk src = true) (h : lookupAssoc src key = some children) :
    namesOkL children = true := by
  unfold lookupAssoc at h
  cases hf : src.find? (fun p => p.1 == key) with
  | none => rw [hf] at h; cases h
  | some pr =>
    rw [hf, Option.map_some'] at h
    rw [Option.some.injEq] at h
    subst h
    have hmem := List.mem_of_find?_eq_some hf
    exact List.all_eq_true.mp hok pr hmem

theorem find_image_none_of_no_distributor {src : Src} {t d ft : String}
    (h : lookupAssoc src d = none) : find_image src t d ft = none := by
  unfold find_image
  rw [h]

theorem find_image_none_of_no_target {src : Src} {t d ft : String}
    {children : List FSTree}
    (h1 : lookupAssoc src d = some children)
    (h2 : selectTarget children ft = none) : find_image src t d ft = none := by
  unfold find_image
  rw [h1]
  show (match selectTarget children ft with
    | none => none
    | some target_folder =>
      pickPriority
        ((rglobFiles [d, target_folder.name] target_folder.childrenOf).filter
          (fun file : FileEntry =>
            containsStr (clean_string file.name) (clean_string t)))) = none
  rw [h2]

theorem find_image_name_ne {src : Src} {t d ft : String} {f : FileEntry}
    (hok : srcNamesOk src = true) (h : find_image src t d ft = some f) :
    f.name ≠ "" := by
  cases hl : lookupAssoc src d with
  | none =>
    rw [find_image_none_of_no_distributor hl] at h
    cases h
  | some children =>
    cases hs : selectTarget children ft with
    | none =>
      rw [find_image_none_of_no_target hl hs] at h
      cases h
    | some tgt =>
      rw [find_image_eq_target src t d ft children tgt hl hs] at h
      have hmem := (List.mem_filter.mp (pickPriority_mem h)).1
      exact rglob_names
        (namesOkL_childrenOf (selectTarget_mem hs) (lookupAssoc_namesOk hok hl))
        hmem

theorem fibto_name_ne {src : Src} {t d ft : String} {f : FileEntry}
    (hok : srcNamesOk src = true)
    (h : find_image_by_title_only src t d ft = some f) : f.name ≠ "" := by
  cases hl : lookupAssoc src d with
  | none =>
    rw [fibto_none_of_no_distributor hl] at h
    cases h
  | some children =>
    cases he : findEntry children ft with
    | none =>
      rw [fibto_none_of_no_target hl he] at h
      cases h
    | some tgt =>
      rw [fibto_eq_find hl he] at h
      have hmem := List.mem_of_find?_eq_some h
      have htgt : tgt ∈ children := by
        unfold findEntry at he
        exact List.mem_of_find?_eq_some he
      exact rglob_names
        (namesOkL_childrenOf htgt (lookupAssoc_namesOk hok hl)) hmem

theorem resolveWithFallback_name_ne {src : Src} {t d ft : String} {f : FileEntry}
    (hok : srcNamesOk src = true)
    (h : resolveWithFallback src t d ft = some f) : f.name ≠ "" := by
  unfold resolveWithFallback at h
  cases hf : find_image src t d ft with
  | some p =>
    rw [hf, Option.some.injEq] at h
    subst h
    exact find_image_name_ne hok hf
  | none =>
    rw [hf] at h
    exact fibto_name_ne hok h

theorem attemptCategory_fst_name {src : Src} {co : CopyOracle}
    {errs : List FileEntry} {t d ft n : String}
    (hok : srcNamesOk src = true)
    (h : (attemptCategory src co errs t d ft).1 = some n) : n ≠ "" := by
  unfold attemptCategory at h
  cases hr : resolveWithFallback src t d ft with
  | none =>
    rw [hr] at h
    cases h
  | some p =>
    rw [hr] at h
    have h2 : (copy_image co p d ft errs).1 = some n := h
    unfold copy_image at h2
    cases hco : co d ft p with
    | success =>
      rw [hco] at h2
      have h3 : some p.name = some n := h2
      rw [Option.some.injEq] at h3
      subst h3
      exact resolveWithFallback_name_ne hok hr
    | permissionError =>
      rw [hco] at h2
      have h3 : (none : Option String) = some n := h2
      cases h3
    | otherError =>
      rw [hco] at h2
      have h3 : (none : Option String) = some n := h2
      cases h3

theorem falsyOpt_attempt {src : Src} {co : CopyOracle} {errs : List FileEntry}
    {t d ft : String} (hok : srcNamesOk src = true) :
    falsyOpt (attemptCategory src co errs t d ft).1 = true ↔
      (attemptCategory src co errs t d ft).1 = none := by
  cases h : (attemptCategory src co errs t d ft).1 with
  | none => simp [falsyOpt]
  | some n =>
    have hne := attemptCategory_fst_name hok h
    simp [falsyOpt, hne]

theorem processRow_valid (src : Src) (co : CopyOracle) (st : RunState)
    (t0 d0 : String) (ht : pyStrip t0 ≠ "") (hd : pyStrip d0 ≠ "") :
    processRow src co st ⟨some t0, some d0⟩ =
      { movieData := dictInsert st.movieData (pyStrip t0)
          ((attemptCategory src co st.copyErrors (pyStrip t0) (pyStrip d0)
              ("Poster")).1,
           (attemptCategory src co
              (attemptCategory src co st.copyErrors (pyStrip t0) (pyStrip d0)
                ("Poster")).2
              (pyStrip t0) (pyStrip d0) ("Still")).1)
        notFound :=
          if falsyOpt (attemptCategory src co st.copyErrors (pyStrip t0)
                (pyStrip d0) ("Poster")).1 &&
              falsyOpt (attemptCategory src co
                (attemptCategory src co st.copyErrors (pyStrip t0) (pyStrip d0)
                  ("Poster")).2
                (pyStrip t0) (pyStrip d0) ("Still")).1
          then bucketAdd st.notFound (pyStrip d0) (pyStrip t0)
          else st.notFound
        copyErrors :=
          (attemptCategory src co
            (attemptCategory src co st.copyErrors (pyStrip t0) (pyStrip d0)
              ("Poster")).2
            (pyStrip t0) (pyStrip d0) ("Still")).2 } := by
  have hbt : (pyStrip t0 == "") = false := beq_eq_false_iff_ne.mpr ht
  have hbd : (pyStrip d0 == "") = false := beq_eq_false_iff_ne.mpr hd
  unfold processRow
  simp only [Option.map_some', falsyOpt, hbt, hbd, Bool.or_self,
    Bool.false_eq_true, if_false, Option.getD_some]

/-- C7: for a catalog entry whose stripped title and distributor are
nonempty, the title lands in the unmatched bucket of its distributor
exactly when neither the Poster nor the Still attempt produced a copied
filename, assuming the source tree carries no empty filename. -/
theorem process_row_unmatched_iff
    (src : Src) (co : CopyOracle) (st : RunState) (t0 d0 : String)
    (hok : srcNamesOk src = true)
    (ht : pyStrip t0 ≠ "") (hd : pyStrip d0 ≠ "") :
    (processRow src co st ⟨some t0, some d0⟩).notFound =
      if (attemptCategory src co st.copyErrors (pyStrip t0) (pyStrip d0)
            ("Poster")).1 = none
          ∧ (attemptCategory src co
              (attemptCategory src co st.copyErrors (pyStrip t0) (pyStrip d0)
                ("Poster")).2
              (pyStrip t0) (pyStrip d0) ("Still")).1 = none
      then bucketAdd st.notFound (pyStrip d0) (pyStrip t0)
      else st.notFound := by
  rw [processRow_valid src co st t0 d0 ht hd]
  have hiff :
      (falsyOpt (attemptCategory src co st.copyErrors (pyStrip t0) (pyStrip d0)
          ("Poster")).1 &&
        falsyOpt (attemptCategory src co
          (attemptCategory src co st.copyErrors (pyStrip t0) (pyStrip d0)
            ("Poster")).2
          (pyStrip t0) (pyStrip d0) ("Still")).1) = true ↔
      ((attemptCategory src co st.copyErrors (pyStrip t0) (pyStrip d0)
          ("Poster")).1 = none
        ∧ (attemptCategory src co
            (attemptCategory src co st.copyErrors (pyStrip t0) (pyStrip d0)
              ("Poster")).2
            (pyStrip t0) (pyStrip d0) ("Still")).1 = none) := by
    rw [Bool.and_eq_true]
    exact and_congr
      (@falsyOpt_attempt src co st.copyErrors (pyStrip t0) (pyStrip d0)
        ("Poster") hok)
      (@falsyOpt_attempt src co
        (attemptCategory src co st.copyErrors (pyStrip t0) (pyStrip d0)
          ("Poster")).2
        (pyStrip t0) (pyStrip d0) ("Still") hok)
  exact if_congr hiff rfl rfl

/-- Witness for C7 at a concrete run: with an empty source tree nothing
resolves, so the title lands in the unmatched bucket of its distributor. -/
theorem process_row_unmatched_iff_witness :
    (processRow [] (fun _ _ _ => CopyOutcome.success) ⟨[], [], []⟩
        ⟨some ("T"), some ("D")⟩).notFound =
      if (attemptCategory [] (fun _ _ _ => CopyOutcome.success) []
            (pyStrip ("T")) (pyStrip ("D")) ("Poster")).1 = none
          ∧ (attemptCategory [] (fun _ _ _ => CopyOutcome.success)
              (attemptCategory [] (fun _ _ _ => CopyOutcome.success) []
                (pyStrip ("T")) (pyStrip ("D")) ("Poster")).2
              (pyStrip ("T")) (pyStrip ("D")) ("Still")).1 = none
      then bucketAdd [] (pyStrip ("D")) (pyStrip ("T"))
      else [] :=
  process_row_unmatched_iff [] (fun _ _ _ => CopyOutcome.success) ⟨[], [], []⟩
    ("T") ("D") rfl (by decide) (by decide)

/-- C8: a failing copy (permission or any other error) returns no
filename and appends the source path to the run error list, a successful
copy returns the source filename and leaves the error list unchanged, and
a row with a valid title and distributor is always recorded in the run
results, so a copy failure never aborts the run. -/
theorem copy_image_error_handling :
    (∀ (co : CopyOracle) (f : FileEntry) (d ft : String)
        (errs : List FileEntry),
      co d ft f = CopyOutcome.permissionError ∨
        co d ft f = CopyOutcome.otherError →
      copy_image co f d ft errs = (none, errs ++ [f]))
    ∧ (∀ (co : CopyOracle) (f : FileEntry) (d ft : String)
        (errs : List FileEntry),
      co d ft f = CopyOutcome.success →
      copy_image co f d ft errs = (some f.name, errs))
    ∧ (∀ (src : Src) (co : CopyOracle) (st : RunState) (t0 d0 : String),
      pyStrip t0 ≠ "" → pyStrip d0 ≠ "" →
      ∃ p s, (processRow src co st ⟨some t0, some d0⟩).movieData =
        dictInsert st.movieData (pyStrip t0) (p, s)) := by
  refine ⟨?_, ?_, ?_⟩
  · intro co f d ft errs h
    unfold copy_image
    rcases h with h | h <;> rw [h]
  · intro co f d ft errs h
    unfold copy_image
    rw [h]
  · intro src co st t0 d0 ht hd
    rw [processRow_valid src co st t0 d0 ht hd]
    exact ⟨_, _, rfl⟩

/-- Witness for C8: a permission-denied copy returns no filename and
records the path, a successful copy returns the filename with no error,
and a row whose copies fail is still recorded. -/
theorem copy_image_error_handling_witness :
    copy_image (fun _ _ _ => CopyOutcome.permissionError) ⟨["E"], "f.jpg"⟩
        ("E") ("Poster") [] = (none, [⟨["E"], "f.jpg"⟩])
    ∧ copy_image (fun _ _ _ => CopyOutcome.success) ⟨["E"], "f.jpg"⟩
        ("E") ("Poster") [] = (some ("f.jpg"), [])
    ∧ ∃ p s, (processRow [] (fun _ _ _ => CopyOutcome.permissionError)
        ⟨[], [], []⟩ ⟨some ("T"), some ("D")⟩).movieData =
        dictInsert [] (pyStrip ("T")) (p, s) :=
  ⟨copy_image_error_handling.1 (fun _ _ _ => CopyOutcome.permissionError)
      ⟨["E"], "f.jpg"⟩ ("E") ("Poster") [] (Or.inl rfl),
   copy_image_error_handling.2.1 (fun _ _ _ => CopyOutcome.success)
      ⟨["E"], "f.jpg"⟩ ("E") ("Poster") [] rfl,
   copy_image_error_handling.2.2 [] (fun _ _ _ => CopyOutcome.permissionError)
      ⟨[], [], []⟩ ("T") ("D") (by decide) (by decide)⟩

/-! ### Catalog updater lemmas -/

theorem getElem?_setRow (l : List SheetRow) (i : Nat) (f : SheetRow → SheetRow)
    (j : Nat) :
    (setRow l i f)[j]? = if j = i then (l[j]?).map f else l[j]? := by
  unfold setRow
  rw [List.getElem?_map, List.getElem?_enum]
  cases h : l[j]? with
  | none => simp
  | some r => by_cases hj : j = i <;> simp [hj]

theorem sheetTitleLookup_spec {sheet : List SheetRow} {key : String} {i : Nat}
    (h : sheetTitleLookup sheet key = some i) :
    ∃ row, sheet[i]? = some row ∧ truthyCell row.title = true ∧
      clean_string (row.title.getD ("")) = key := by
  unfold sheetTitleLookup at h
  cases hl : (sheet.enum.filter (fun p => truthyCell p.2.title &&
      (clean_string (p.2.title.getD ("")) == key))).getLast? with
  | none => rw [hl] at h; cases h
  | some pr =>
    rw [hl, Option.map_some'] at h
    rw [Option.some.injEq] at h
    subst h
    have hmem : pr ∈ sheet.enum.filter (fun p => truthyCell p.2.title &&
        (clean_string (p.2.title.getD ("")) == key)) :=
      List.mem_of_mem_getLast? (by rw [Option.mem_def]; exact hl)
    have h2 := List.mem_filter.mp hmem
    have hpred := h2.2
    rw [Bool.and_eq_true, beq_iff_eq] at hpred
    obtain ⟨n, row⟩ := pr
    refine ⟨row, ?_, hpred.1, hpred.2⟩
    have h3 := List.mk_mem_enum_iff_getElem?.mp h2.1
    simpa using h3

theorem updateStep_preserve_ne {sheet sh : List SheetRow}
    {e : String × Option String × Option String} {i : Nat} {row : SheetRow}
    (hrow : sheet[i]? = some row)
    (hno : ¬(truthyCell row.title = true ∧
      clean_string (row.title.getD ("")) = clean_string e.1)) :
    (updateStep sheet sh e)[i]? = sh[i]? := by
  unfold updateStep
  cases hlk : sheetTitleLookup sheet (clean_string e.1) with
  | none => rfl
  | some j =>
    obtain ⟨rowj, hrj, htr, hcl⟩ := sheetTitleLookup_spec hlk
    have hij : i ≠ j := by
      intro hh
      subst hh
      rw [hrow] at hrj
      rw [Option.some.injEq] at hrj
      subst hrj
      exact hno ⟨htr, hcl⟩
    rw [getElem?_setRow, if_neg hij]

theorem updateStep_poster_preserve {sheet sh : List SheetRow}
    {e : String × Option String × Option String} {i : Nat} {row : SheetRow}
    (hrow : sheet[i]? = some row)
    (hp : clean_string (row.title.getD ("")) = clean_string e.1 →
      e.2.1 = none) :
    ((updateStep sheet sh e)[i]?).map SheetRow.poster =
      (sh[i]?).map SheetRow.poster := by
  unfold updateStep
  cases hlk : sheetTitleLookup sheet (clean_string e.1) with
  | none => rfl
  | some j =>
    rw [getElem?_setRow]
    by_cases hij : i = j
    · rw [if_pos hij]
      subst hij
      obtain ⟨rowj, hrj, htr, hcl⟩ := sheetTitleLookup_spec hlk
      rw [hrow] at hrj
      rw [Option.some.injEq] at hrj
      subst hrj
      have he : e.2.1 = none := hp hcl
      cases hs : sh[i]? with
      | none => rfl
      | some r =>
        rw [Option.map_some', Option.map_some', Option.map_some']
        rw [Option.some.injEq]
        show (if truthyCell e.2.1 = true then e.2.1 else r.poster) = r.poster
        rw [he]
        rfl
    · rw [if_neg hij]

theorem updateStep_still_preserve {sheet sh : List SheetRow}
    {e : String × Option String × Option String} {i : Nat} {row : SheetRow}
    (hrow : sheet[i]? = some row)
    (hp : clean_string (row.title.getD ("")) = clean_string e.1 →
      e.2.2 = none) :
    ((updateStep sheet sh e)[i]?).map SheetRow.still =
      (sh[i]?).map SheetRow.still := by
  unfold updateStep
  cases hlk : sheetTitleLookup sheet (clean_string e.1) with
  | none => rfl
  | some j =>
    rw [getElem?_setRow]
    by_cases hij : i = j
    · rw [if_pos hij]
      subst hij
      obtain ⟨rowj, hrj, htr, hcl⟩ := sheetTitleLookup_spec hlk
      rw [hrow] at hrj
      rw [Option.some.injEq] at hrj
      subst hrj
      have he : e.2.2 = none := hp hcl
      cases hs : sh[i]? with
      | none => rfl
      | some r =>
        rw [Option.map_some', Option.map_some', Option.map_some']
        rw [Option.some.injEq]
        show (if truthyCell e.2.2 = true then e.2.2 else r.still) = r.still
        rw [he]
        rfl
    · rw [if_neg hij]

/-- C9: update_images writes only into rows whose normalized title equals
the normalized title of some key of the results mapping, leaving every
other row unchanged; and inside a matched row the poster column is left
untouched when no matching entry resolved a poster filename, and the
still column likewise when no matching entry resolved a still filename. -/
theorem update_images_frame :
    (∀ (md : List (String × Option String × Option String))
        (sheet : List SheetRow) (i : Nat) (row : SheetRow),
      sheet[i]? = some row →
      (∀ e ∈ md, ¬(truthyCell row.title = true ∧
        clean_string (row.title.getD ("")) = clean_string e.1)) →
      (update_images md sheet)[i]? = some row)
    ∧ (∀ (md : List (String × Option String × Option String))
        (sheet : List SheetRow) (i : Nat) (row : SheetRow),
      sheet[i]? = some row →
      (∀ e ∈ md, clean_string (row.title.getD ("")) = clean_string e.1 →
        e.2.1 = none) →
      ((update_images md sheet)[i]?).map SheetRow.poster = some row.poster)
    ∧ (∀ (md : List (String × Option String × Option String))
        (sheet : List SheetRow) (i : Nat) (row : SheetRow),
      sheet[i]? = some row →
      (∀ e ∈ md, clean_string (row.title.getD ("")) = clean_string e.1 →
        e.2.2 = none) →
      ((update_images md sheet)[i]?).map SheetRow.still = some row.still) := by
  refine ⟨?_, ?_, ?_⟩
  · intro md sheet i row hrow hno
    unfold update_images
    have hgen : ∀ (md2 : List (String × Option String × Option String))
        (sh : List SheetRow),
        (∀ e ∈ md2, ¬(truthyCell row.title = true ∧
          clean_string (row.title.getD ("")) = clean_string e.1)) →
        sh[i]? = some row →
        (md2.foldl (updateStep sheet) sh)[i]? = some row := by
      intro md2
      induction md2 with
      | nil => exact fun sh _ hsh => hsh
      | cons e rest ih =>
        intro sh hno2 hsh
        rw [List.foldl_cons]
        refine ih (updateStep sheet sh e)
          (fun x hx => hno2 x (List.mem_cons_of_mem e hx)) ?_
        rw [updateStep_preserve_ne hrow (hno2 e (List.mem_cons_self e rest))]
        exact hsh
    exact hgen md sheet hno hrow
  · intro md sheet i row hrow hp
    unfold update_images
    have hgen : ∀ (md2 : List (String × Option String × Option String))
        (sh : List SheetRow),
        (∀ e ∈ md2, clean_string (row.title.getD ("")) = clean_string e.1 →
          e.2.1 = none) →
        (sh[i]?).map SheetRow.poster = some row.poster →
        ((md2.foldl (updateStep sheet) sh)[i]?).map SheetRow.poster =
          some row.poster := by
      intro md2
      induction md2 with
      | nil => exact fun sh _ hsh => hsh
      | cons e rest ih =>
        intro sh hp2 hsh
        rw [List.foldl_cons]
        refine ih (updateStep sheet sh e)
          (fun x hx => hp2 x (List.mem_cons_of_mem e hx)) ?_
        rw [updateStep_poster_preserve hrow (hp2 e (List.mem_cons_self e rest))]
        exact hsh
    refine hgen md sheet hp ?_
    rw [hrow, Option.map_some']
  · intro md sheet i row hrow hp
    unfold update_images
    have hgen : ∀ (md2 : List (String × Option String × Option String))
        (sh : List SheetRow),
        (∀ e ∈ md2, clean_string (row.title.getD ("")) = clean_string e.1 →
          e.2.2 = none) →
        (sh[i]?).map SheetRow.still = some row.still →
        ((md2.foldl (updateStep sheet) sh)[i]?).map SheetRow.still =
          some row.still := by
      intro md2
      induction md2 with
      | nil => exact fun sh _ hsh => hsh
      | cons e rest ih =>
        intro sh hp2 hsh
        rw [List.foldl_cons]
        refine ih (updateStep sheet sh e)
          (fun x hx => hp2 x (List.mem_cons_of_mem e hx)) ?_
        rw [updateStep_still_preserve hrow (hp2 e (List.mem_cons_self e rest))]
        exact hsh
    refine hgen md sheet hp ?_
    rw [hrow, Option.map_some']

/-- Concrete sheet with three rows: one matching no results key, one
matched by an entry carrying no poster, one matched by an entry carrying
no still. -/
def exampleSheet : List SheetRow :=
  [⟨some ("B"), none, none⟩, ⟨some ("A"), some ("old.jpg"), none⟩,
   ⟨some ("C"), none, some ("oldstill.jpg")⟩]

/-- Concrete results mapping: title A with a still and no poster, title C
with a poster and no still. -/
def exampleResults : List (String × Option String × Option String) :=
  [("A", none, some ("s.jpg")), ("C", some ("p.jpg"), none)]

/-- Witness for C9 at a concrete catalog: the unmatched first row is
returned unchanged, the poster column of the matched second row is
untouched because its entry resolved no poster, and the still column of
the matched third row is untouched because its entry resolved no still. -/
theorem update_images_frame_witness :
    (update_images exampleResults exampleSheet)[0]? =
      some ⟨some ("B"), none, none⟩
    ∧ ((update_images exampleResults exampleSheet)[1]?).map SheetRow.poster =
      some (some ("old.jpg"))
    ∧ ((update_images exampleResults exampleSheet)[2]?).map SheetRow.still =
      some (some ("oldstill.jpg")) :=
  ⟨update_images_frame.1 exampleResults exampleSheet 0 ⟨some ("B"), none, none⟩
      rfl (by decide),
   update_images_frame.2.1 exampleResults exampleSheet 1
      ⟨some ("A"), some ("old.jpg"), none⟩ rfl (by decide),
   update_images_frame.2.2 exampleResults exampleSheet 2
      ⟨some ("C"), none, some ("oldstill.jpg")⟩ rfl (by decide)⟩
